/-
Verification of the medi-co backend's drug-interaction core against its
natural-language specification.

The Python code (backend/utils/data_loader.py, backend/routes/interactions.py,
backend/routes/search.py, backend/routes/verification.py,
backend/routes/medical_files.py) is shallowly embedded below.  Python strings
are modelled as `List Char` (abbreviated `Str`), Python dicts as association
lists with last-write-wins lookup (`dictGet`) and first-insertion iteration
order (`dictItems`), pandas row filtering plus `.iloc[0]` as `List.find?`
over the row list, and `itertools.combinations(l, 2)` as `combinations2`.
-/
import Mathlib

set_option linter.unusedVariables false

abbrev Str := List Char

/-- Python `name.lower()` on the character list model. -/
def lowerStr (s : Str) : Str := s.map Char.toLower

/-- `beginsWith pat s` is true when `pat` occurs at the start of `s`. -/
def beginsWith : Str → Str → Bool
  | [], _ => true
  | _ :: _, [] => false
  | a :: as, b :: bs => a = b && beginsWith as bs

/-- Python `pat in s`: `pat` occurs as a contiguous substring of `s`. -/
def hasSubstr (pat : Str) : Str → Bool
  | [] => pat.isEmpty
  | c :: rest => beginsWith pat (c :: rest) || hasSubstr pat rest

/-- Python `s.replace(pat, rep, 1)`: replace the leftmost occurrence of
`pat` in `s` by `rep` (identity when `pat` does not occur). -/
def replaceFirst (pat rep : Str) : Str → Str
  | [] => if pat.isEmpty then rep else []
  | c :: rest =>
    if beginsWith pat (c :: rest) then rep ++ (c :: rest).drop pat.length
    else c :: replaceFirst pat rep rest

/-- Python string `<=` (lexicographic by code point). -/
def strLe : Str → Str → Bool
  | [], _ => true
  | _ :: _, [] => false
  | a :: as, b :: bs => if a < b then true else if b < a then false else strLe as bs

/-- Python `sorted([x, y])` for two strings. -/
def sortPairL (x y : Str) : List Str := if strLe x y then [x, y] else [y, x]

/-- Python dict lookup `d.get(k)` for a dict built from `pairs` in order:
the value of the LAST binding of `k` wins (later insertions overwrite). -/
def dictGet {β : Type} (pairs : List (Str × β)) (k : Str) : Option β :=
  match pairs with
  | [] => none
  | p :: rest =>
    match dictGet rest k with
    | some v => some v
    | none => if p.1 = k then some p.2 else none

/-- Keys of a Python dict in iteration order: first-insertion order,
each key once.  `seen` accumulates keys already emitted. -/
def dictKeysGo (seen : List Str) : List (Str × Str) → List Str
  | [] => []
  | p :: rest =>
    if p.1 ∈ seen then dictKeysGo seen rest
    else p.1 :: dictKeysGo (p.1 :: seen) rest

def dictKeys (pairs : List (Str × Str)) : List Str := dictKeysGo [] pairs

/-- Python `d.items()`: keys in first-insertion order, each paired with the
value of its last binding. -/
def dictItems (pairs : List (Str × Str)) : List (Str × Str) :=
  (dictKeys pairs).filterMap (fun k => (dictGet pairs k).map (fun v => (k, v)))

/- ------------------------------------------------------------------
   data_loader.py
   ------------------------------------------------------------------ -/

/-- The synonym dataset `drugs_synonyms.json`: drug id -> list of names,
first name = primary display name. -/
abbrev SynonymData := List (Str × List Str)

/-- `name_to_id = {name.lower(): drug_id for drug_id, names in synonyms.items()
for name in names}` — the bindings in generation order (dict semantics are
applied by `dictGet` / `dictItems`). -/
def nameToIdPairs : SynonymData → List (Str × Str)
  | [] => []
  | e :: rest => e.2.map (fun n => (lowerStr n, e.1)) ++ nameToIdPairs rest

/-- `id_to_name = {drug_id: names[0] for drug_id, names in synonyms.items()}`. -/
def idToNamePairs : SynonymData → List (Str × Str)
  | [] => []
  | e :: rest =>
    match e.2.head? with
    | some n => (e.1, n) :: idToNamePairs rest
    | none => idToNamePairs rest

/-- `name_to_id.get(name.lower())`. -/
def resolve (syn : SynonymData) (name : Str) : Option Str :=
  dictGet (nameToIdPairs syn) (lowerStr name)

/-- `id_to_name.get(i, i)` — display name of an id, defaulting to the id. -/
def idNameD (syn : SynonymData) (i : Str) : Str :=
  (dictGet (idToNamePairs syn) i).getD i

/- ------------------------------------------------------------------
   interactions.py
   ------------------------------------------------------------------ -/

/-- One row of the interaction DataFrame after the loader's renaming:
columns `Drug1 ID`, `Drug2 ID`, `Interaction`. -/
structure InteractionRow where
  drug1 : Str
  drug2 : Str
  desc : Str
deriving DecidableEq

/-- The loaded global data: the interaction DataFrame rows (in file order)
and the synonym dataset. -/
structure DrugData where
  interactionRows : List InteractionRow
  synonyms : SynonymData
deriving DecidableEq

/-- The DataFrame filter
`(Drug1 ID == id1 & Drug2 ID == id2) | (Drug1 ID == id2 & Drug2 ID == id1)`
followed by the emptiness check and `.iloc[0]['Interaction']`:
description of the first matching row, if any. -/
def lookupInteraction (rows : List InteractionRow) (id1 id2 : Str) : Option Str :=
  (rows.find? (fun r =>
    (r.drug1 = id1 && r.drug2 = id2) || (r.drug1 = id2 && r.drug2 = id1))).map
    (fun r => r.desc)

/-- `itertools.combinations(l, 2)`: all pairs `(l[i], l[j])` with `i < j`,
in lexicographic index order. -/
def combinations2 {α : Type} : List α → List (α × α)
  | [] => []
  | x :: xs => xs.map (fun y => (x, y)) ++ combinations2 xs

/-- The placeholder `"(.*)"` appearing in interaction descriptions. -/
def placeholder : Str := ['(', '.', '*', ')']

/-- `if "(.*)" in description: description.replace("(.*)", n1, 1).replace("(.*)", n2, 1)`. -/
def renderDescription (desc n1 n2 : Str) : Str :=
  if hasSubstr placeholder desc
  then replaceFirst placeholder n2 (replaceFirst placeholder n1 desc)
  else desc

/-- One entry of `found_interactions`. -/
structure Finding where
  pair : List Str
  description : Str
deriving DecidableEq

/-- Building one finding for ids `(id1, id2)` whose lookup returned `desc`. -/
def mkFinding (syn : SynonymData) (id1 id2 desc : Str) : Finding :=
  let n1 := idNameD syn id1
  let n2 := idNameD syn id2
  { pair := sortPairL n1 n2, description := renderDescription desc n1 n2 }

/-- `valid_ids`: map every requested name through `name_to_id.get(name.lower())`,
then keep only truthy results (`None` and the empty string are dropped). -/
def validIds (syn : SynonymData) (names : List Str) : List Str :=
  (names.filterMap (resolve syn)).filter (fun i => !i.isEmpty)

/-- The pair list the resolver iterates: `itertools.combinations(valid_ids, 2)`. -/
def queriedPairs (dd : DrugData) (names : List Str) : List (Str × Str) :=
  combinations2 (validIds dd.synonyms names)

/-- `found_interactions` of `check_interactions`. -/
def resolverFindings (dd : DrugData) (names : List Str) : List Finding :=
  (queriedPairs dd names).filterMap (fun p =>
    (lookupInteraction dd.interactionRows p.1 p.2).map (mkFinding dd.synonyms p.1 p.2))

def safeMessage : Str :=
  ("No interactions found. This combination appears to be safe.").toList

def foundMessage (n : Nat) : Str :=
  ("Found ").toList ++ (Nat.repr n).toList ++ (" potential interaction(s).").toList

def detail400 : Str := ("Please provide at least two drugs to check.").toList

def detail404 : Str :=
  ("Could not identify at least two of the provided drugs in the database.").toList

def unknownName : Str := ("Unknown").toList

structure CheckResponse where
  is_safe : Bool
  message : Str
  checked_drugs : List Str
  interactions : List Finding
deriving DecidableEq

/-- Outcome of the endpoint: an `HTTPException(status, detail)` or a response. -/
inductive CheckResult where
  | error (status : Nat) (detail : Str)
  | ok (r : CheckResponse)
deriving DecidableEq

/-- `check_interactions` of interactions.py. -/
def checkInteractions (dd : DrugData) (drugNames : List Str) : CheckResult :=
  if drugNames.length < 2 then .error 400 detail400
  else if (validIds dd.synonyms drugNames).length < 2 then .error 404 detail404
  else
    .ok { is_safe := (resolverFindings dd drugNames).isEmpty
          message :=
            if (resolverFindings dd drugNames).isEmpty then safeMessage
            else foundMessage (resolverFindings dd drugNames).length
          checked_drugs := (validIds dd.synonyms drugNames).map (fun i =>
            (dictGet (idToNamePairs dd.synonyms) i).getD unknownName)
          interactions := resolverFindings dd drugNames }

/- ------------------------------------------------------------------
   search.py
   ------------------------------------------------------------------ -/

structure SearchResponse where
  found : Bool
  primaryName : Option Str
  drugId : Option Str
  searchTerm : Str
  partialMatches : Option (List (Str × Str × Str))
  message : Option Str
deriving DecidableEq

def noMatchesMessage : Str := ("No matches found").toList

def foundPartialMessage (n : Nat) : Str :=
  ("Found ").toList ++ (Nat.repr n).toList ++ (" partial matches").toList

/-- The partial-match loop of `search_drug`: iterate `name_to_id.items()` in
dict order and keep entries whose key contains the query as a substring;
each kept entry is `(drug_id, primary_name, matched_name)`. -/
def partialMatchList (dd : DrugData) (drugName : Str) : List (Str × Str × Str) :=
  (dictItems (nameToIdPairs dd.synonyms)).filterMap (fun p =>
    if hasSubstr (lowerStr drugName) p.1
    then some (p.2, idNameD dd.synonyms p.2, p.1)
    else none)

/-- `search_drug` of search.py. -/
def searchDrug (dd : DrugData) (drugName : Str) : SearchResponse :=
  match dictGet (nameToIdPairs dd.synonyms) (lowerStr drugName) with
  | some did =>
      { found := true
        primaryName := some (idNameD dd.synonyms did)
        drugId := some did
        searchTerm := drugName
        partialMatches := none
        message := none }
  | none =>
      if (partialMatchList dd drugName).isEmpty then
        { found := false, primaryName := none, drugId := none
          searchTerm := drugName, partialMatches := none
          message := some noMatchesMessage }
      else
        { found := false, primaryName := none, drugId := none
          searchTerm := drugName
          partialMatches := some ((partialMatchList dd drugName).take 10)
          message := some (foundPartialMessage (partialMatchList dd drugName).length) }

/- ------------------------------------------------------------------
   verification.py
   ------------------------------------------------------------------ -/

/-- `_check_drug_interactions` of verification.py: same resolution, pairing
and lookup as interactions.py, but it returns `[]` (instead of a 404) when
fewer than two names resolve, and it does NOT substitute the `(.*)`
placeholder in the description. -/
def verifCheckInteractions (dd : DrugData) (drugNames : List Str) : List Finding :=
  if (validIds dd.synonyms drugNames).length < 2 then []
  else
    (combinations2 (validIds dd.synonyms drugNames)).filterMap (fun p =>
      (lookupInteraction dd.interactionRows p.1 p.2).map (fun desc =>
        { pair := sortPairL (idNameD dd.synonyms p.1) (idNameD dd.synonyms p.2)
          description := desc }))

def noCriticalMessage : Str :=
  ("No critical interactions found in the internal database.").toList

def newlineChar : Str := [Char.ofNat 10]

/-- One line `- {pair[0]} & {pair[1]}: {description}` of the prompt. -/
def findingLine (f : Finding) : Str :=
  ("- ").toList ++ (List.intercalate ((" & ").toList) f.pair) ++ (": ").toList
    ++ f.description

/-- The interactions block of the `verify_prescription` prompt:
`chr(10).join(lines) if interactions else "No critical interactions..."`. -/
def interactionsSection (findings : List Finding) : Str :=
  if findings.isEmpty then noCriticalMessage
  else List.intercalate newlineChar (findings.map findingLine)

/- ------------------------------------------------------------------
   medical_files.py : upload_medical_file
   ------------------------------------------------------------------ -/

/-- `{'.pdf', '.txt', '.doc', '.docx', '.jpg', '.png'}`. -/
def allowedExtensions : List Str :=
  [(".pdf").toList, (".txt").toList, (".doc").toList,
   (".docx").toList, (".jpg").toList, (".png").toList]

/-- Index of the last occurrence of `c` in `s`, if any. -/
def rfindAux (c : Char) : Str → Option Nat
  | [] => none
  | x :: rest =>
    match rfindAux c rest with
    | some i => some (i + 1)
    | none => if x = c then some 0 else none

/-- Python `s.rfind(c)`: last index of `c`, or `-1` when absent. -/
def rfindC (c : Char) (s : Str) : Int :=
  (rfindAux c s).elim (-1) (fun n => (n : Int))

/-- `os.path.splitext` (posix): split off the extension starting at the last
dot of the final path component, unless that component consists only of
leading dots up to it. -/
def pySplitExt (p : Str) : Str × Str :=
  let sepIdx := rfindC '/' p
  let dotIdx := rfindC '.' p
  if sepIdx < dotIdx then
    let start := (sepIdx + 1).toNat
    let mid := (p.drop start).take (dotIdx.toNat - start)
    if mid.all (fun ch => ch = '.') then (p, [])
    else (p.take dotIdx.toNat, p.drop dotIdx.toNat)
  else (p, [])

/-- Starlette's `HTTPException.__str__`: `f"{status_code}: {detail}"`. -/
def httpExcStr (status : Nat) (detail : Str) : Str :=
  (Nat.repr status).toList ++ (": ").toList ++ detail

def extDetail (ext : Str) : Str :=
  ("File type ").toList ++ ext ++ (" not allowed. Supported: ").toList
    ++ List.intercalate ((", ").toList) allowedExtensions

def sizeDetail : Str := ("File too large. Maximum size: 10MB").toList

/-- The body of the `try:` block of `upload_medical_file`, up to and
including the input-validation raises.  An `HTTPException(400, d)` raised by
validation is an `.error (400, d)`; passing validation `.ok`s (the rest of
the body — disk write, text extraction, AI summary — is I/O outside the
embedded fragment). -/
def uploadValidate (filename : Str) (contentSize : Nat) : Except (Nat × Str) Unit :=
  let ext := lowerStr (pySplitExt filename).2
  if !(allowedExtensions.contains ext) then
    Except.error (400, extDetail ext)
  else if contentSize > 10 * 1024 * 1024 then
    Except.error (400, sizeDetail)
  else Except.ok ()

inductive UploadOutcome where
  | httpError (status : Nat) (detail : Str)
  | proceeds
deriving DecidableEq

/-- `upload_medical_file` of medical_files.py, restricted to the validation
path.  Its `except Exception as e:` clause also catches the
`HTTPException(400, ...)` raised by its own validation (FastAPI's
`HTTPException` subclasses `Exception`) and re-raises it as
`HTTPException(500, f"Upload failed: {str(e)}")`. -/
def uploadMedicalFile (filename : Str) (contentSize : Nat) : UploadOutcome :=
  match uploadValidate filename contentSize with
  | Except.error (s, d) =>
      UploadOutcome.httpError 500 (("Upload failed: ").toList ++ httpExcStr s d)
  | Except.ok _ => UploadOutcome.proceeds

/- ==================================================================
   Lemmas about combinations2 (claim C1)
   ================================================================== -/

theorem comb2_map {α β : Type} (f : α → β) (l : List α) :
    combinations2 (l.map f) = (combinations2 l).map (fun p => (f p.1, f p.2)) := by
  induction l with
  | nil => rfl
  | cons x xs ih =>
    simp [combinations2, ih, List.map_map, Function.comp]

theorem map_range_getD {α : Type} (d : α) (l : List α) :
    (List.range l.length).map (fun i => l.getD i d) = l := by
  induction l with
  | nil => rfl
  | cons x xs ih =>
    rw [List.length_cons, List.range_succ_eq_map]
    simp only [List.map_cons, List.map_map, List.getD_cons_zero, List.cons.injEq]
    refine ⟨trivial, ?_⟩
    have he : ((fun i => (x :: xs).getD i d) ∘ Nat.succ) = fun i => xs.getD i d := by
      funext i
      simp [List.getD_cons_succ]
    rw [he, ih]

theorem comb2_range_succ (n : Nat) :
    combinations2 (List.range (n + 1)) =
      ((List.range n).map (fun j => (0, j + 1)))
        ++ (combinations2 (List.range n)).map (fun p => (p.1 + 1, p.2 + 1)) := by
  rw [List.range_succ_eq_map]
  simp [combinations2, comb2_map, List.map_map, Function.comp, Nat.succ_eq_add_one]

theorem mem_comb2_range (n i j : Nat) :
    ((i, j) ∈ combinations2 (List.range n)) ↔ (i < j ∧ j < n) := by
  induction n generalizing i j with
  | zero => simp [combinations2]
  | succ n ih =>
    rw [comb2_range_succ]
    simp only [List.mem_append, List.mem_map, List.mem_range, Prod.mk.injEq]
    constructor
    · rintro (⟨j', hj', h0, hj⟩ | ⟨p, hp, h1, h2⟩)
      · omega
      · have := (ih p.1 p.2).mp hp
        omega
    · rintro ⟨hij, hjn⟩
      by_cases hi : i = 0
      · exact Or.inl ⟨j - 1, by omega, by omega, by omega⟩
      · exact Or.inr ⟨(i - 1, j - 1), (ih _ _).mpr (by omega), by omega, by omega⟩

theorem nodup_comb2_range (n : Nat) : (combinations2 (List.range n)).Nodup := by
  induction n with
  | zero => simp [combinations2]
  | succ n ih =>
    rw [comb2_range_succ]
    refine List.Nodup.append ?_ ?_ ?_
    · refine List.Nodup.map ?_ (List.nodup_range n)
      intro a b h
      simpa using h
    · refine List.Nodup.map ?_ ih
      intro p q h
      have := Prod.mk.injEq .. ▸ h
      simp only [Prod.mk.injEq] at this
      exact Prod.ext (by omega) (by omega)
    · intro a ha hb
      simp only [List.mem_map, List.mem_range] at ha hb
      obtain ⟨j', _, hj⟩ := ha
      obtain ⟨p, _, hp⟩ := hb
      rw [← hj] at hp
      simp only [Prod.mk.injEq] at hp
      omega

theorem length_comb2 {α : Type} (l : List α) :
    (combinations2 l).length = Nat.choose l.length 2 := by
  induction l with
  | nil => rfl
  | cons x xs ih =>
    simp [combinations2, ih, Nat.choose_succ_succ, Nat.choose_one_right]

/-- C1: with `n ≥ 2` resolved identifiers, the resolver queries exactly the
`itertools.combinations` pair list of the resolved identifier list (which is
the input-ordered `filterMap` of resolution with falsy entries dropped and no
de-duplication): that list has exactly `C(n,2)` entries, is the image of the
index pairs `(i, j)`, contains index pair `(i, j)` iff `i < j < n` (so no
self-pair), and enumerates each index pair exactly once (no duplicates). -/
theorem C1_pair_enumeration (dd : DrugData) (names : List Str)
    (h : 2 ≤ (validIds dd.synonyms names).length) :
    queriedPairs dd names = combinations2 (validIds dd.synonyms names)
    ∧ (queriedPairs dd names).length
        = Nat.choose (validIds dd.synonyms names).length 2
    ∧ queriedPairs dd names
        = (combinations2 (List.range (validIds dd.synonyms names).length)).map
            (fun p => ((validIds dd.synonyms names).getD p.1 [],
                       (validIds dd.synonyms names).getD p.2 []))
    ∧ (∀ i j : Nat,
        ((i, j) ∈ combinations2 (List.range (validIds dd.synonyms names).length))
          ↔ (i < j ∧ j < (validIds dd.synonyms names).length))
    ∧ (combinations2 (List.range (validIds dd.synonyms names).length)).Nodup := by
  refine ⟨rfl, length_comb2 _, ?_, fun i j => mem_comb2_range _ i j,
    nodup_comb2_range _⟩
  have hv := map_range_getD ([] : Str) (validIds dd.synonyms names)
  calc queriedPairs dd names
      = combinations2 ((List.range (validIds dd.synonyms names).length).map
          (fun i => (validIds dd.synonyms names).getD i [])) := by
        rw [hv]
        rfl
    _ = _ := comb2_map _ _

/- ==================================================================
   Claim C3: symmetry of the interaction-table lookup
   ================================================================== -/

/-- C3: the interaction-table lookup is symmetric — for every row list and
every two canonical identifiers `a` and `b`, looking up `(a, b)` and
`(b, a)` return the same result (the same description when a row matches,
`none` otherwise), because the row filter tests both orientations. -/
theorem C3_lookup_symmetric (rows : List InteractionRow) (a b : Str) :
    lookupInteraction rows a b = lookupInteraction rows b a := by
  unfold lookupInteraction
  have hp : (fun r : InteractionRow =>
        (r.drug1 = a && r.drug2 = b) || (r.drug1 = b && r.drug2 = a))
      = (fun r : InteractionRow =>
        (r.drug1 = b && r.drug2 = a) || (r.drug1 = a && r.drug2 = b)) := by
    funext r
    exact Bool.or_comm _ _
  rw [hp]

/- ==================================================================
   String lemmas for claim C2
   ================================================================== -/

theorem beginsWith_append (pat t : Str) : beginsWith pat (pat ++ t) = true := by
  induction pat with
  | nil => rfl
  | cons a as ih => simp [beginsWith, ih]

theorem hasSubstr_mid (pat a t : Str) : hasSubstr pat (a ++ (pat ++ t)) = true := by
  induction a with
  | nil =>
    simp only [List.nil_append]
    cases hpt : pat ++ t with
    | nil =>
      have : pat = [] := by
        cases pat with
        | nil => rfl
        | cons p ps => simp at hpt
      simp [this, hasSubstr]
    | cons c rest =>
      rw [hasSubstr, ← hpt, beginsWith_append]
      rfl
  | cons x a' ih =>
    simp only [List.cons_append]
    rw [hasSubstr, ih]
    simp

theorem replaceFirst_at (pat rep : Str) (a t : Str)
    (h : ∀ i, i < a.length → beginsWith pat ((a ++ (pat ++ t)).drop i) = false) :
    replaceFirst pat rep (a ++ (pat ++ t)) = a ++ (rep ++ t) := by
  induction a with
  | nil =>
    simp only [List.nil_append]
    cases pat with
    | nil =>
      cases t with
      | nil => simp [replaceFirst]
      | cons c rest => simp [replaceFirst, beginsWith]
    | cons p ps =>
      rw [List.cons_append, replaceFirst]
      rw [← List.cons_append, beginsWith_append]
      simp only [if_true]
      rw [List.drop_left]
  | cons x a' ih =>
    have h0 := h 0 (by simp)
    simp only [List.cons_append, List.drop_zero] at h0
    rw [List.cons_append, replaceFirst, h0]
    simp only [Bool.false_eq_true, if_false]
    rw [List.cons_append]
    congr 1
    refine ih ?_
    intro i hi
    have := h (i + 1) (by simpa using Nat.succ_lt_succ hi)
    simpa using this

theorem strLe_total (x y : Str) : strLe x y = true ∨ strLe y x = true := by
  induction x generalizing y with
  | nil => exact Or.inl rfl
  | cons a as ih =>
    cases y with
    | nil => exact Or.inr rfl
    | cons b bs =>
      by_cases hab : a < b
      · exact Or.inl (by simp [strLe, hab])
      · by_cases hba : b < a
        · exact Or.inr (by simp [strLe, hba])
        · rcases ih bs with h | h
          · exact Or.inl (by simp [strLe, hab, hba, h])
          · exact Or.inr (by simp [strLe, hab, hba, h])

theorem strLe_antisymm (x y : Str) (hxy : strLe x y = true) (hyx : strLe y x = true) :
    x = y := by
  induction x generalizing y with
  | nil =>
    cases y with
    | nil => rfl
    | cons b bs => exact absurd hyx (by simp [strLe])
  | cons a as ih =>
    cases y with
    | nil => exact absurd hxy (by simp [strLe])
    | cons b bs =>
      by_cases hab : a < b
      · rw [strLe] at hyx
        have hba : ¬ b < a := fun h => absurd hab (asymm h)
        simp [hba, hab] at hyx
      · by_cases hba : b < a
        · rw [strLe] at hxy
          simp [hab, hba] at hxy
        · have hae : a = b := le_antisymm (le_of_not_lt hba) (le_of_not_lt hab)
          rw [strLe] at hxy hyx
          simp only [hab, hba, if_false] at hxy hyx
          rw [hae, ih bs hxy hyx]

theorem sortPairL_comm (x y : Str) : sortPairL x y = sortPairL y x := by
  unfold sortPairL
  by_cases hxy : strLe x y = true
  · by_cases hyx : strLe y x = true
    · rw [strLe_antisymm x y hxy hyx]
    · simp [hxy, hyx]
  · rcases strLe_total x y with h | h
    · exact absurd h hxy
    · simp [hxy, h]

theorem sortPairL_is_sorted (x y : Str) :
    ∃ u v, sortPairL x y = [u, v] ∧ strLe u v = true := by
  unfold sortPairL
  by_cases hxy : strLe x y = true
  · exact ⟨x, y, by simp [hxy], hxy⟩
  · rcases strLe_total x y with h | h
    · exact absurd h hxy
    · exact ⟨y, x, by simp [hxy], h⟩

/-- C2: for a pair `(id1, id2)` found in the table with description template
`a ++ "(.*)" ++ b ++ "(.*)" ++ c` (hypotheses `h1`, `h2` state that the shown
occurrences are the leftmost ones at each of the two substitution steps), the
rendered finding substitutes the first placeholder occurrence with the first
queried drug's display name and the second with the second drug's display
name, and — for any description — the `pair` field is the two display names
sorted lexicographically, independent of query order. -/
theorem C2_render_and_pair (syn : SynonymData) (id1 id2 : Str) (a b c : Str)
    (h1 : ∀ i, i < a.length →
      beginsWith placeholder
        ((a ++ (placeholder ++ (b ++ (placeholder ++ c)))).drop i) = false)
    (h2 : ∀ i, i < (a ++ (idNameD syn id1 ++ b)).length →
      beginsWith placeholder
        (((a ++ (idNameD syn id1 ++ b)) ++ (placeholder ++ c)).drop i) = false) :
    (mkFinding syn id1 id2 (a ++ (placeholder ++ (b ++ (placeholder ++ c))))).description
      = a ++ (idNameD syn id1 ++ (b ++ (idNameD syn id2 ++ c)))
    ∧ (∀ d : Str, (mkFinding syn id1 id2 d).pair
        = sortPairL (idNameD syn id1) (idNameD syn id2))
    ∧ sortPairL (idNameD syn id1) (idNameD syn id2)
        = sortPairL (idNameD syn id2) (idNameD syn id1)
    ∧ ∃ u v, sortPairL (idNameD syn id1) (idNameD syn id2) = [u, v]
        ∧ strLe u v = true := by
  refine ⟨?_, fun d => rfl, sortPairL_comm _ _, sortPairL_is_sorted _ _⟩
  show renderDescription _ _ _ = _
  rw [renderDescription]
  rw [hasSubstr_mid]
  simp only [if_true]
  rw [replaceFirst_at placeholder (idNameD syn id1) a (b ++ (placeholder ++ c)) h1]
  have hassoc : a ++ (idNameD syn id1 ++ (b ++ (placeholder ++ c)))
      = (a ++ (idNameD syn id1 ++ b)) ++ (placeholder ++ c) := by
    simp [List.append_assoc]
  rw [hassoc]
  rw [replaceFirst_at placeholder (idNameD syn id2) _ c h2]
  simp [List.append_assoc]

/- ==================================================================
   Concrete example data used by the witnesses
   ================================================================== -/

def wSyn : SynonymData :=
  [(("DB1").toList, [("Aspirin").toList, ("ASA").toList]),
   (("DB2").toList, [("Warfarin").toList, ("Coumadin").toList]),
   (("DB3").toList, [("Ibuprofen").toList])]

def wRows : List InteractionRow :=
  [{ drug1 := ("DB1").toList, drug2 := ("DB2").toList,
     desc := ("(.*) may increase the effect of (.*).").toList }]

def wDD : DrugData := { interactionRows := wRows, synonyms := wSyn }

def wNames : List Str := [("Warfarin").toList, ("asa").toList]

/-- Witness for C1 at a request resolving two identifiers. -/
theorem C1_pair_enumeration_witness :
    (queriedPairs wDD wNames).length
      = Nat.choose (validIds wDD.synonyms wNames).length 2 :=
  (C1_pair_enumeration wDD wNames (by decide)).2.1

/-- Witness for C2 at a concrete two-placeholder description. -/
theorem C2_render_and_pair_witness :
    (mkFinding wSyn (("DB1").toList) (("DB2").toList)
        (("Note: ").toList ++ (placeholder
          ++ ((" boosts ").toList ++ (placeholder ++ (".").toList))))).description
      = ("Note: Aspirin boosts Warfarin.").toList :=
  ((C2_render_and_pair wSyn (("DB1").toList) (("DB2").toList)
      (("Note: ").toList) ((" boosts ").toList) ((".").toList)
      (by decide) (by decide)).1).trans (by decide)

/- ==================================================================
   Claim C4: safety aggregation
   ================================================================== -/

/-- C4: every successful interaction-check response has `is_safe` false
exactly when at least one interaction was found; when interactions were
found the message reports their count, and when none were found the
interaction list is empty, `is_safe` is true and the safe message is used. -/
theorem C4_safety_aggregation (dd : DrugData) (names : List Str)
    (r : CheckResponse) (h : checkInteractions dd names = CheckResult.ok r) :
    (r.is_safe = r.interactions.isEmpty)
    ∧ (r.interactions ≠ [] →
        r.is_safe = false ∧ r.message = foundMessage r.interactions.length)
    ∧ (r.interactions = [] → r.is_safe = true ∧ r.message = safeMessage) := by
  unfold checkInteractions at h
  split at h
  · exact CheckResult.noConfusion h
  · split at h
    · exact CheckResult.noConfusion h
    · injection h with h
      subst h
      by_cases hf : resolverFindings dd names = []
      · simp [hf]
      · have hne : (resolverFindings dd names).isEmpty = false := by
          simp [List.isEmpty_iff, hf]
        simp [hne, hf]

/-- Witness for C4 at a request whose pair is in the table. -/
theorem C4_safety_aggregation_witness :
    ({ is_safe := false
       message := foundMessage 1
       checked_drugs := [("Warfarin").toList, ("Aspirin").toList]
       interactions :=
         [{ pair := [("Aspirin").toList, ("Warfarin").toList]
            description :=
              ("Warfarin may increase the effect of Aspirin.").toList }]
     } : CheckResponse).is_safe
      = ({ is_safe := false
           message := foundMessage 1
           checked_drugs := [("Warfarin").toList, ("Aspirin").toList]
           interactions :=
             [{ pair := [("Aspirin").toList, ("Warfarin").toList]
                description :=
                  ("Warfarin may increase the effect of Aspirin.").toList }]
         } : CheckResponse).interactions.isEmpty :=
  (C4_safety_aggregation wDD wNames _ (by decide)).1

/- ==================================================================
   Claim C5: error paths of the interaction-check endpoint
   ================================================================== -/

/-- C5: fewer than 2 drug names yields the 400 validation error — and does so
for EVERY loaded dataset, i.e. without consulting resolution; at least 2
names of which fewer than 2 resolve yields the 404 error; and an error
outcome is never equal to a successful response, so both failures are
distinguishable from a success with no interactions found. -/
theorem C5_error_paths (dd : DrugData) (names : List Str) :
    (names.length < 2 →
      checkInteractions dd names = CheckResult.error 400 detail400
      ∧ ∀ dd' : DrugData,
          checkInteractions dd' names = CheckResult.error 400 detail400)
    ∧ (2 ≤ names.length → (validIds dd.synonyms names).length < 2 →
      checkInteractions dd names = CheckResult.error 404 detail404)
    ∧ (∀ (s : Nat) (d : Str) (r : CheckResponse),
        CheckResult.error s d ≠ CheckResult.ok r) := by
  refine ⟨?_, ?_, fun s d r h => CheckResult.noConfusion h⟩
  · intro h
    refine ⟨?_, fun dd' => ?_⟩
    · unfold checkInteractions
      rw [if_pos h]
    · unfold checkInteractions
      rw [if_pos h]
  · intro h2 h4
    unfold checkInteractions
    rw [if_neg (by omega), if_pos h4]

/-- Witness for C5 at a one-drug request. -/
theorem C5_error_paths_witness :
    checkInteractions wDD [("Aspirin").toList] = CheckResult.error 400 detail400 :=
  ((C5_error_paths wDD [("Aspirin").toList]).1 (by decide)).1

/- ==================================================================
   Dict lemmas and claim C6: name resolution
   ================================================================== -/

theorem dictGet_mem {β : Type} (pairs : List (Str × β)) (k : Str) (v : β)
    (h : dictGet pairs k = some v) : (k, v) ∈ pairs := by
  induction pairs with
  | nil => exact Option.noConfusion h
  | cons p rest ih =>
    rw [dictGet] at h
    cases hr : dictGet rest k with
    | some w =>
      rw [hr] at h
      injection h with h
      subst h
      exact List.mem_cons_of_mem _ (ih hr)
    | none =>
      rw [hr] at h
      by_cases hk : p.1 = k
      · rw [if_pos hk] at h
        injection h with h
        have : p = (k, v) := by
          cases p
          simp_all
        rw [← this]
        exact List.mem_cons_self _ _
      · rw [if_neg hk] at h
        exact Option.noConfusion h

theorem dictGet_eq_none_iff {β : Type} (pairs : List (Str × β)) (k : Str) :
    dictGet pairs k = none ↔ ∀ p ∈ pairs, p.1 ≠ k := by
  induction pairs with
  | nil => simp [dictGet]
  | cons p rest ih =>
    rw [dictGet]
    cases hr : dictGet rest k with
    | some w =>
      simp only []
      constructor
      · intro h
        exact Option.noConfusion h
      · intro h
        exact absurd hr ((fun hn => by simp [hn]) ((ih.mpr (fun q hq => h q (List.mem_cons_of_mem _ hq)))))
    | none =>
      simp only []
      by_cases hk : p.1 = k
      · simp only [if_pos hk]
        constructor
        · intro h
          exact Option.noConfusion h
        · intro h
          exact absurd hk (h p (List.mem_cons_self _ _))
      · simp only [if_neg hk]
        constructor
        · intro _ q hq
          rcases List.mem_cons.mp hq with rfl | hq'
          · exact hk
          · exact (ih.mp hr) q hq'
        · intro _
          trivial

theorem dictGet_eq_some_of_unique {β : Type} (pairs : List (Str × β)) (k : Str)
    (v : β) (hmem : (k, v) ∈ pairs)
    (huniq : ∀ p ∈ pairs, p.1 = k → p.2 = v) :
    dictGet pairs k = some v := by
  induction pairs with
  | nil => cases hmem
  | cons p rest ih =>
    rw [dictGet]
    cases hr : dictGet rest k with
    | some w =>
      have hw : (k, w) ∈ rest := dictGet_mem rest k w hr
      have hv : w = v := huniq (k, w) (List.mem_cons_of_mem _ hw) rfl
      show some w = some v
      rw [hv]
    | none =>
      rcases List.mem_cons.mp hmem with rfl | hmem'
      · show (if (k, v).1 = k then some (k, v).2 else none) = some v
        simp
      · exact absurd hr (by
          rw [ih hmem' (fun q hq hk => huniq q (List.mem_cons_of_mem _ hq) hk)]
          simp)

theorem mem_nameToIdPairs (syn : SynonymData) (k v : Str) :
    (k, v) ∈ nameToIdPairs syn
      ↔ ∃ e ∈ syn, ∃ n ∈ e.2, k = lowerStr n ∧ v = e.1 := by
  induction syn with
  | nil => simp [nameToIdPairs]
  | cons e rest ih =>
    simp only [nameToIdPairs, List.mem_append, List.mem_map, List.mem_cons, ih,
      Prod.mk.injEq]
    constructor
    · rintro (⟨n, hn, hk, hv⟩ | ⟨e', he', n, hn, hk, hv⟩)
      · exact ⟨e, Or.inl rfl, n, hn, hk.symm, hv.symm⟩
      · exact ⟨e', Or.inr he', n, hn, hk, hv⟩
    · rintro ⟨e', he' | he', n, hn, hk, hv⟩
      · subst he'
        exact Or.inl ⟨n, hn, hk.symm, hv.symm⟩
      · exact Or.inr ⟨e', he', n, hn, hk, hv⟩

/-- The dataset invariant stated by the spec: every synonym (compared
case-insensitively) belongs to exactly one canonical identifier. -/
def uniqueSynonyms (syn : SynonymData) : Prop :=
  ∀ e1 ∈ syn, ∀ e2 ∈ syn, ∀ n1 ∈ e1.2, ∀ n2 ∈ e2.2,
    lowerStr n1 = lowerStr n2 → e1.1 = e2.1

instance (syn : SynonymData) : Decidable (uniqueSynonyms syn) := by
  unfold uniqueSynonyms
  infer_instance

/-- C6: resolution is case-insensitive (it depends only on the lowercased
name) and exact (it succeeds only when some synonym matches the lowercased
name exactly, and then returns that record's identifier); and under the
spec's invariant that synonyms are unique across records, resolving any
synonym of a record and resolving its primary display name (the head of its
name list) both yield that record's canonical identifier. -/
theorem C6_resolution (syn : SynonymData) :
    (∀ n1 n2 : Str, lowerStr n1 = lowerStr n2 → resolve syn n1 = resolve syn n2)
    ∧ (∀ name : Str, resolve syn name ≠ none →
        ∃ e ∈ syn, ∃ n ∈ e.2, lowerStr n = lowerStr name
          ∧ resolve syn name = some e.1)
    ∧ (uniqueSynonyms syn →
        ∀ e ∈ syn, ∀ n ∈ e.2,
          resolve syn n = some e.1
          ∧ ∀ p, e.2.head? = some p → resolve syn p = some e.1) := by
  have hkey : ∀ (e : Str × List Str), e ∈ syn → ∀ n ∈ e.2, uniqueSynonyms syn →
      resolve syn n = some e.1 := by
    intro e he n hn huniq
    apply dictGet_eq_some_of_unique
    · exact (mem_nameToIdPairs syn (lowerStr n) e.1).mpr ⟨e, he, n, hn, rfl, rfl⟩
    · intro p hp hpk
      obtain ⟨e', he', n', hn', hk', hv'⟩ := (mem_nameToIdPairs syn p.1 p.2).mp
        (by cases p; exact hp)
      rw [hv']
      exact huniq e' he' e he n' hn' n hn (by rw [← hk', hpk])
  refine ⟨?_, ?_, ?_⟩
  · intro n1 n2 h
    unfold resolve
    rw [h]
  · intro name h
    cases hres : resolve syn name with
    | none => exact absurd hres h
    | some v =>
      have hmem := dictGet_mem _ _ _ hres
      obtain ⟨e, he, n, hn, hk, hv⟩ := (mem_nameToIdPairs syn (lowerStr name) v).mp hmem
      exact ⟨e, he, n, hn, hk.symm, by simp [hres, hv]⟩
  · intro huniq e he n hn
    refine ⟨hkey e he n hn huniq, ?_⟩
    intro p hp
    have hpmem : p ∈ e.2 := by
      cases h2 : e.2 with
      | nil => rw [h2] at hp; exact Option.noConfusion hp
      | cons x xs =>
        rw [h2] at hp
        injection hp with hp
        subst hp
        exact List.mem_cons_self _ _
    exact hkey e he p hpmem huniq

/-- Witness for C6: resolving the synonym `"ASA"` of record `DB1` yields
`DB1`, as does resolving the record's primary name. -/
theorem C6_resolution_witness :
    resolve wSyn (("ASA").toList) = some (("DB1").toList) :=
  ((C6_resolution wSyn).2.2 (by decide)
    ((("DB1").toList, [("Aspirin").toList, ("ASA").toList])) (by decide)
    (("ASA").toList) (by decide)).1

/- ==================================================================
   Claim C7: verification findings vs. resolver findings
   ================================================================== -/

/-- Counterexample to C7 as stated: on a dataset whose interaction
description contains the placeholder `(.*)` (which the real dataset does —
interactions.py checks for it explicitly), the verification service's
internal findings keep the raw template while the resolver substitutes the
display names, so the two finding lists differ. -/
theorem C7_counterexample :
    verifCheckInteractions wDD wNames ≠ resolverFindings wDD wNames := by
  decide

theorem filterMap_congr_on {α β : Type} (l : List α) (f g : α → Option β)
    (h : ∀ a ∈ l, f a = g a) : l.filterMap f = l.filterMap g := by
  induction l with
  | nil => rfl
  | cons x xs ih =>
    rw [List.filterMap_cons, List.filterMap_cons, h x (List.mem_cons_self _ _),
      ih (fun a ha => h a (List.mem_cons_of_mem _ ha))]

theorem lookupInteraction_desc_mem (rows : List InteractionRow) (a b d : Str)
    (h : lookupInteraction rows a b = some d) : ∃ r ∈ rows, r.desc = d := by
  unfold lookupInteraction at h
  cases hf : rows.find? (fun r =>
      (r.drug1 = a && r.drug2 = b) || (r.drug1 = b && r.drug2 = a)) with
  | none => rw [hf] at h; exact Option.noConfusion h
  | some r =>
    rw [hf] at h
    injection h with h
    exact ⟨r, List.mem_of_find?_eq_some hf, h⟩

/-- C7 amended: when at least two names resolve, the findings the
verification service embeds agree with the resolver's findings in their
`pair` fields (same pairs, same order); the full finding lists (including
descriptions) are equal whenever no interaction-row description contains the
`(.*)` placeholder — when a description does contain it, the verification
service embeds the raw template while the resolver substitutes the two
display names (see the counterexample). -/
theorem C7_findings_agreement (dd : DrugData) (names : List Str)
    (h : 2 ≤ (validIds dd.synonyms names).length) :
    ((verifCheckInteractions dd names).map Finding.pair
      = (resolverFindings dd names).map Finding.pair)
    ∧ ((∀ row ∈ dd.interactionRows, hasSubstr placeholder row.desc = false) →
        verifCheckInteractions dd names = resolverFindings dd names) := by
  have hguard : verifCheckInteractions dd names
      = (combinations2 (validIds dd.synonyms names)).filterMap (fun p =>
          (lookupInteraction dd.interactionRows p.1 p.2).map (fun desc =>
            { pair := sortPairL (idNameD dd.synonyms p.1) (idNameD dd.synonyms p.2)
              description := desc })) := by
    unfold verifCheckInteractions
    rw [if_neg (by omega)]
  constructor
  · rw [hguard]
    unfold resolverFindings queriedPairs
    rw [List.map_filterMap, List.map_filterMap]
    apply filterMap_congr_on
    intro p hp
    cases hlk : lookupInteraction dd.interactionRows p.1 p.2 with
    | none => rfl
    | some d => rfl
  · intro hnoph
    rw [hguard]
    unfold resolverFindings queriedPairs
    apply filterMap_congr_on
    intro p hp
    cases hlk : lookupInteraction dd.interactionRows p.1 p.2 with
    | none => rfl
    | some d =>
      obtain ⟨r, hr, hrd⟩ := lookupInteraction_desc_mem _ _ _ _ hlk
      have hd : hasSubstr placeholder d = false := by
        rw [← hrd]
        exact hnoph r hr
      show some ({ pair := sortPairL (idNameD dd.synonyms p.1)
                      (idNameD dd.synonyms p.2)
                   description := d } : Finding)
          = some (mkFinding dd.synonyms p.1 p.2 d)
      congr 1
      unfold mkFinding renderDescription
      rw [hd]
      simp

/-- Second concrete dataset: same synonyms, placeholder-free description. -/
def w2DD : DrugData :=
  { interactionRows :=
      [{ drug1 := ("DB1").toList, drug2 := ("DB2").toList,
         desc := ("Increased risk of bleeding.").toList }]
    synonyms := wSyn }

/-- Witness for the amended C7 on a placeholder-free dataset. -/
theorem C7_findings_agreement_witness :
    verifCheckInteractions w2DD wNames = resolverFindings w2DD wNames :=
  (C7_findings_agreement w2DD wNames (by decide)).2 (by decide)

/- ==================================================================
   Claim C8: upload validation errors are converted to 500
   ================================================================== -/

/-- C8 fails on the code: the validation raises `HTTPException(400, ...)`
inside the `try:` block, but the handler's blanket `except Exception`
catches that very exception (FastAPI's `HTTPException` subclasses
`Exception`) and re-raises it as a 500 `Upload failed: 400: ...`.  A
disallowed extension and an oversized body therefore both surface as HTTP
500, not as the 4xx validation error the spec requires. -/
theorem C8_upload_rejections_become_500 :
    uploadMedicalFile (("report.exe").toList) 100
      = UploadOutcome.httpError 500
          ((("Upload failed: ").toList) ++ httpExcStr 400 (extDetail ((".exe").toList)))
    ∧ uploadMedicalFile (("scan.pdf").toList) (10 * 1024 * 1024 + 1)
      = UploadOutcome.httpError 500
          ((("Upload failed: ").toList) ++ httpExcStr 400 sizeDetail) := by
  exact ⟨rfl, rfl⟩

/- ==================================================================
   Claim C10: verification is lenient where the endpoint 404s
   ================================================================== -/

/-- C10: when at least two names are requested but fewer than two resolve,
the verification service's internal check returns the empty finding list
(no error), its prompt's interaction block reads "No critical interactions
found in the internal database." — so the request proceeds — while the
interaction-check endpoint fails with 404 in the same situation. -/
theorem C10_verification_lenient (dd : DrugData) (names : List Str)
    (h2 : 2 ≤ names.length)
    (h : (validIds dd.synonyms names).length < 2) :
    verifCheckInteractions dd names = []
    ∧ interactionsSection (verifCheckInteractions dd names) = noCriticalMessage
    ∧ checkInteractions dd names = CheckResult.error 404 detail404 := by
  have hv : verifCheckInteractions dd names = [] := by
    unfold verifCheckInteractions
    rw [if_pos h]
  refine ⟨hv, ?_, ?_⟩
  · rw [hv]
    rfl
  · unfold checkInteractions
    rw [if_neg (by omega), if_pos h]

/-- Witness for C10 at two unrecognized names. -/
theorem C10_verification_lenient_witness :
    verifCheckInteractions wDD [("Foo").toList, ("Bar").toList] = [] :=
  (C10_verification_lenient wDD [("Foo").toList, ("Bar").toList]
    (by decide) (by decide)).1

/- ==================================================================
   Claim C9: drug search
   ================================================================== -/

theorem mem_dictKeysGo_of (pairs : List (Str × Str)) :
    ∀ (seen : List Str) (k v : Str),
      (k, v) ∈ pairs → k ∉ seen → k ∈ dictKeysGo seen pairs := by
  induction pairs with
  | nil =>
    intro seen k v hmem _
    cases hmem
  | cons p rest ih =>
    intro seen k v hmem hns
    rw [dictKeysGo]
    by_cases hs : p.1 ∈ seen
    · rw [if_pos hs]
      rcases List.mem_cons.mp hmem with heq | hm
      · rw [← heq] at hs
        exact absurd hs hns
      · exact ih seen k v hm hns
    · rw [if_neg hs]
      rcases List.mem_cons.mp hmem with heq | hm
      · rw [← heq]
        exact List.mem_cons_self _ _
      · by_cases hk : k = p.1
        · rw [hk]
          exact List.mem_cons_self _ _
        · refine List.mem_cons_of_mem _ (ih (p.1 :: seen) k v hm ?_)
          intro hin
          rcases List.mem_cons.mp hin with h | h
          · exact hk h
          · exact hns h

theorem mem_dictItems_of (pairs : List (Str × Str)) (k v w : Str)
    (hmem : (k, v) ∈ pairs) (hget : dictGet pairs k = some w) :
    (k, w) ∈ dictItems pairs := by
  have hkey : k ∈ dictKeys pairs :=
    mem_dictKeysGo_of pairs [] k v hmem (by simp)
  unfold dictItems
  refine List.mem_filterMap.mpr ⟨k, hkey, ?_⟩
  rw [hget]
  rfl

/-- C9: searching a name that is an exact (case-insensitive) synonym returns
`found = true` with no partial-match list; searching a name with no exact
match but with at least one synonym containing it as a case-insensitive
substring returns `found = false` with a partial-match list that is the
first ten elements of the deterministic candidate list `partialMatchList`
(a pure function of the loaded index, so two runs over the same index return
the same list), hence at most ten entries. -/
theorem C9_search (dd : DrugData) (name : Str) :
    ((∃ e ∈ dd.synonyms, ∃ n ∈ e.2, lowerStr n = lowerStr name) →
      (searchDrug dd name).found = true
      ∧ (searchDrug dd name).partialMatches = none)
    ∧ ((¬ ∃ e ∈ dd.synonyms, ∃ n ∈ e.2, lowerStr n = lowerStr name) →
      (∃ e ∈ dd.synonyms, ∃ n ∈ e.2,
          hasSubstr (lowerStr name) (lowerStr n) = true) →
      (searchDrug dd name).found = false
      ∧ (searchDrug dd name).partialMatches
          = some ((partialMatchList dd name).take 10)
      ∧ ((partialMatchList dd name).take 10).length ≤ 10) := by
  constructor
  · rintro ⟨e, he, n, hn, hlow⟩
    have hbind : (lowerStr name, e.1) ∈ nameToIdPairs dd.synonyms :=
      (mem_nameToIdPairs _ _ _).mpr ⟨e, he, n, hn, hlow.symm, rfl⟩
    cases hg : dictGet (nameToIdPairs dd.synonyms) (lowerStr name) with
    | none =>
      exact absurd rfl ((dictGet_eq_none_iff _ _).mp hg (lowerStr name, e.1) hbind)
    | some did =>
      unfold searchDrug
      rw [hg]
      exact ⟨rfl, rfl⟩
  · intro hno hsub
    have hnone : dictGet (nameToIdPairs dd.synonyms) (lowerStr name) = none := by
      rw [dictGet_eq_none_iff]
      intro p hp hpk
      obtain ⟨e, he, n, hn, hk, hv⟩ :=
        (mem_nameToIdPairs dd.synonyms p.1 p.2).mp (by cases p; exact hp)
      exact hno ⟨e, he, n, hn, by rw [← hk]; exact hpk⟩
    have hne : partialMatchList dd name ≠ [] := by
      obtain ⟨e, he, n, hn, hsubn⟩ := hsub
      have hbind : (lowerStr n, e.1) ∈ nameToIdPairs dd.synonyms :=
        (mem_nameToIdPairs _ _ _).mpr ⟨e, he, n, hn, rfl, rfl⟩
      cases hg : dictGet (nameToIdPairs dd.synonyms) (lowerStr n) with
      | none =>
        exact absurd rfl ((dictGet_eq_none_iff _ _).mp hg (lowerStr n, e.1) hbind)
      | some w =>
        have hitem : (lowerStr n, w) ∈ dictItems (nameToIdPairs dd.synonyms) :=
          mem_dictItems_of _ _ _ _ hbind hg
        apply List.ne_nil_of_mem (a := (w, idNameD dd.synonyms w, lowerStr n))
        unfold partialMatchList
        refine List.mem_filterMap.mpr ⟨(lowerStr n, w), hitem, ?_⟩
        simp [hsubn]
    refine ⟨?_, ?_, List.length_take_le _ _⟩
    · unfold searchDrug
      rw [hnone]
      rw [if_neg (by simp [List.isEmpty_iff, hne])]
    · unfold searchDrug
      rw [hnone]
      rw [if_neg (by simp [List.isEmpty_iff, hne])]

/-- Witness for C9: the substring query `"rin"` has no exact match in the
example index but matches two synonyms. -/
theorem C9_search_witness :
    (searchDrug wDD (("rin").toList)).partialMatches
      = some ((partialMatchList wDD (("rin").toList)).take 10) :=
  ((C9_search wDD (("rin").toList)).2 (by decide) (by decide)).2.1
